import Mathlib

/-!
SQLite schema upgrader (store/sqlite3/upgrade.go)

A shallow embedding of the SQLite upgrader.  The database connection is an
explicit state: a statement execution transforms the state and is recorded in
a trace, a metadata query reads the state.  Every operation is a function from
a world (database state and trace of executed statements) to its Go results
and the world it leaves behind.
-/

namespace Sqlite3

/-! ## Errors -/

/-- Go error values: an error handed back by the database driver, an error
built by fmt.Errorf without the %w verb, and an error built by fmt.Errorf whose
%w verb wraps another error.  The format string and its other arguments are
kept apart, unrendered. -/
inductive Error where
  | driver (msg : String)
  | errorf (format : String) (args : List String)
  | wrapf (format : String) (args : List String) (inner : Error)
deriving DecidableEq, Repr

/-- The error directly wrapped by an error (errors.Unwrap). -/
def Error.Unwrap : Error → Option Error
  | .wrapf _ _ inner => some inner
  | _ => none

/-! ## Package ddl: data -/

/-- The column type of package ddl, whose declaration is not among the sources:
Typ is the field Type the source reads, the integer tag of the semantic type
(zero value 0), and Length stands for what else a column type carries. -/
structure ColumnType where
  Typ : Nat := 0
  Length : Nat := 0
deriving DecidableEq, Repr

/-- A column of package ddl, with the fields the upgrader fills in. -/
structure Column where
  Name : String
  Typ : ColumnType := {}
  IsNull : Bool := false
  DefaultValue : String := ""
deriving DecidableEq, Repr

/-- An index of package ddl. -/
structure Index where
  Name : String
  Table : String
  Fields : List String := []
  Unique : Bool := false
deriving DecidableEq, Repr

/-- A table of package ddl. -/
structure Table where
  Name : String
  Columns : List Column := []
  Indexes : List Index := []
deriving DecidableEq, Repr

/-- Modelled from the spec: the method Get of ddl.Columns is not among the
sources; the spec compares columns by name, so Get returns the first column
carrying the name and nothing (a nil pointer) when no column carries it. -/
def Columns.Get (cc : List Column) (name : String) : Option Column :=
  cc.find? (fun c => c.Name == name)

/-- The generator of package ddl: its template functions, by name. -/
structure Generator where
  funcs : String → Option (ColumnType → String)

/-- Registers a template function under a name, replacing an earlier one. -/
def Generator.AddTemplateFunc (g : Generator) (name : String)
    (fn : ColumnType → String) : Generator :=
  { funcs := fun n => if n = name then some fn else g.funcs n }

/-! ## The database connection -/

/-- A row of PRAGMA TABLE_INFO, the local type col of getColumns. -/
structure col where
  CID : Int := 0
  Name : String
  NotNull : Bool := false
  PrimaryKey : Bool := false
  DefaultValue : Option String := none
  Typ : String := ""
deriving DecidableEq, Repr

/-- The store configuration. -/
structure Config where
  DBName : String

/-- The store: its configuration and the three calls made on its connection.
ExecContext runs a statement, returning the driver's error (if any) and the
next database state; GetContext and SelectContext are read-only queries. -/
structure Store (σ : Type) where
  Config : Config
  ExecContext : σ → String → List String → Option Error × σ
  GetContext : σ → String → List String → Except Error Bool
  SelectContext : σ → String → List String → Except Error (List col)

/-- A world: the database state and the statements executed so far, oldest
first. -/
structure World (σ : Type) where
  db : σ
  executed : List String

/-- The upgrader (the logger is left out). -/
structure upgrader (σ : Type) where
  s : Store σ
  ddl : Generator

/-- What upgrade.go takes from the packages ddl, rdbms and fmt, none of which is
among the sources: the constants and functions of ddl, the SQL text each
generator method renders, the generic per-table upgrade of rdbms, and the %q
verb of fmt. -/
structure Imports (σ : Type) where
  NewGenerator : Generator
  ColumnTypeTimestamp : Nat
  ColumnTypeBinary : Nat
  distinct : ColumnTypeTimestamp ≠ ColumnTypeBinary
  GenColumnType : ColumnType → String
  CreateTable : Generator → Table → String
  CreateIndex : Generator → Index → String
  AddColumn : Generator → String → Column → String
  DropColumn : Generator → String → String → String
  RenameColumn : Generator → String → String → String → String
  GenericBefore : upgrader σ → World σ → Option Error × World σ
  GenericAfter : upgrader σ → World σ → Option Error × World σ
  GenericUpgrade : upgrader σ → Table → World σ → Option Error × World σ
  quote : String → String

variable {σ : Type}

/-! ## upgrade.go -/

/-- The columnType template function NewUpgrader installs. -/
def columnType (imp : Imports σ) (ct : ColumnType) : String :=
  if ct.Typ = imp.ColumnTypeTimestamp then "TIMESTAMP"
  else if ct.Typ = imp.ColumnTypeBinary then "BLOB"
  else imp.GenColumnType ct

/-- NewUpgrader returns the SQLite schema upgrader. -/
def NewUpgrader (imp : Imports σ) (store : Store σ) : upgrader σ :=
  { s := store, ddl := imp.NewGenerator.AddTemplateFunc "columnType" (columnType imp) }

/-- Exec runs one statement on the connection. -/
def upgrader.Exec (u : upgrader σ) (sql : String) (aa : List String)
    (w : World σ) : Option Error × World σ :=
  let r := u.s.ExecContext w.db sql aa
  (r.1, { db := r.2, executed := w.executed ++ [sql] })

/-- The existence query of TableExists. -/
def tableExistsQuery : String :=
  "SELECT COUNT(*) > 0 FROM sqlite_master WHERE type = 'table' AND name = ?"

/-- TableExists asks the database whether the table exists. -/
def upgrader.TableExists (u : upgrader σ) (table : String)
    (w : World σ) : (Bool × Option Error) × World σ :=
  match u.s.GetContext w.db tableExistsQuery [table] with
  | .error err => ((false, some (.wrapf "could not check if table exists: %w" [] err)), w)
  | .ok found => ((found, none), w)

/-- Before runs before all tables are upgraded. -/
def upgrader.Before (imp : Imports σ) (u : upgrader σ) (w : World σ) :
    Option Error × World σ :=
  imp.GenericBefore u w

/-- After runs after all tables are upgraded. -/
def upgrader.After (imp : Imports σ) (u : upgrader σ) (w : World σ) :
    Option Error × World σ :=
  imp.GenericAfter u w

/-- The function upgradeTable applies the changes of one existing table. -/
def upgrader.upgradeTable (imp : Imports σ) (u : upgrader σ) (t : Table)
    (w : World σ) : Option Error × World σ :=
  imp.GenericUpgrade u t w

/-- The loop of CreateTable over the indexes of the table. -/
def upgrader.createIndexes (imp : Imports σ) (u : upgrader σ) :
    List Index → World σ → Option Error × World σ
  | [], w => (none, w)
  | i :: rest, w =>
    match u.Exec (imp.CreateIndex u.ddl i) [] w with
    | (some err, w') =>
      (some (.wrapf "could not create index %s on table %s: %w" [i.Name, i.Table] err), w')
    | (none, w') => upgrader.createIndexes imp u rest w'

/-- CreateTable creates a missing table and its indexes, and upgrades an
existing one. -/
def upgrader.CreateTable (imp : Imports σ) (u : upgrader σ) (t : Table)
    (w : World σ) : Option Error × World σ :=
  match u.TableExists t.Name w with
  | ((_, some err), w1) => (some err, w1)
  | ((false, none), w1) =>
    match u.Exec (imp.CreateTable u.ddl t) [] w1 with
    | (some err, w2) => (some err, w2)
    | (none, w2) => u.createIndexes imp t.Indexes w2
  | ((true, none), w1) => u.upgradeTable imp t w1

/-- DropTable drops an existing table. -/
def upgrader.DropTable (u : upgrader σ) (table : String)
    (w : World σ) : (Bool × Option Error) × World σ :=
  match u.TableExists table w with
  | ((_, some err), w1) => ((false, some err), w1)
  | ((false, none), w1) => ((false, none), w1)
  | ((true, none), w1) =>
    match u.Exec ("DROP TABLE " ++ table) [] w1 with
    | (some err, w2) => ((false, some err), w2)
    | (none, w2) => ((true, none), w2)

/-- TableSchema is pending implementation. -/
def upgrader.TableSchema (_u : upgrader σ) (_table : String)
    (w : World σ) : (List Column × Option Error) × World σ :=
  (([], some (.errorf "pending implementation" [])), w)

/-- The function getColumns loads all columns of a table. -/
def upgrader.getColumns (imp : Imports σ) (u : upgrader σ) (table : String)
    (w : World σ) : (List Column × Option Error) × World σ :=
  let lookup := "PRAGMA TABLE_INFO(" ++ imp.quote table ++ ")"
  match u.s.SelectContext w.db lookup [u.s.Config.DBName, table] with
  | .error err => (([], some err), w)
  | .ok cols => ((cols.map (fun c => { Name := c.Name, IsNull := !c.NotNull }), none), w)

/-- AddColumn adds a column to a table. -/
def upgrader.AddColumn (imp : Imports σ) (u : upgrader σ) (table : String)
    (column : Column) (w : World σ) : (Bool × Option Error) × World σ :=
  let inner : (Bool × Option Error) × World σ :=
    match u.getColumns imp table w with
    | ((_, some err), w1) => ((false, some err), w1)
    | ((columns, none), w1) =>
      if (Columns.Get columns column.Name).isSome then ((false, none), w1)
      else
        match u.Exec (imp.AddColumn u.ddl table column) [] w1 with
        | (some err, w2) => ((false, some err), w2)
        | (none, w2) => ((true, none), w2)
  match inner with
  | ((_, some err), w') =>
    ((false, some (.wrapf "could not add column %q to %q: %w" [column.Name, table] err)), w')
  | ((added, none), w') => ((added, none), w')

/-- DropColumn drops a column from a table. -/
def upgrader.DropColumn (imp : Imports σ) (u : upgrader σ) (table column : String)
    (w : World σ) : (Bool × Option Error) × World σ :=
  let inner : (Bool × Option Error) × World σ :=
    match u.getColumns imp table w with
    | ((_, some err), w1) => ((false, some err), w1)
    | ((columns, none), w1) =>
      if (Columns.Get columns column).isNone then ((false, none), w1)
      else
        match u.Exec (imp.DropColumn u.ddl table column) [] w1 with
        | (some err, w2) => ((false, some err), w2)
        | (none, w2) => ((true, none), w2)
  match inner with
  | ((_, some err), w') =>
    ((false, some (.wrapf "could not drop column %q from %q: %w" [column, table] err)), w')
  | ((dropped, none), w') => ((dropped, none), w')

/-- RenameColumn renames a column on a table. -/
def upgrader.RenameColumn (imp : Imports σ) (u : upgrader σ)
    (table oldName newName : String) (w : World σ) :
    (Bool × Option Error) × World σ :=
  let inner : (Bool × Option Error) × World σ :=
    if oldName = newName then ((false, none), w)
    else
      match u.getColumns imp table w with
      | ((_, some err), w1) => ((false, some err), w1)
      | ((columns, none), w1) =>
        if (Columns.Get columns oldName).isNone then
          if (Columns.Get columns newName).isNone then
            ((false, some (.errorf "old and new columns are missing" [])), w1)
          else ((false, none), w1)
        else if (Columns.Get columns newName).isSome then
          ((false, some (.errorf "new column already exists" [])), w1)
        else
          match u.Exec (imp.RenameColumn u.ddl table oldName newName) [] w1 with
          | (some err, w2) => ((false, some err), w2)
          | (none, w2) => ((true, none), w2)
  match inner with
  | ((_, some err), w') =>
    ((false, some (.wrapf "could not rename column %q on table %q to %q: %w"
      [oldName, table, newName] err)), w')
  | ((changed, none), w') => ((changed, none), w')

/-- AddPrimaryKey is not implemented on SQLite. -/
def upgrader.AddPrimaryKey (_u : upgrader σ) (_table : String) (_ind : Index)
    (w : World σ) : (Bool × Option Error) × World σ :=
  ((false, some (.errorf "adding primary keys on sqlite tables is not implemented" [])), w)

/-! ## Statement sequences -/

/-- The database state after running a list of statements in order. -/
def Store.execAll (s : Store σ) : σ → List String → σ
  | st, [] => st
  | st, q :: qs => Store.execAll s (s.ExecContext st q []).2 qs

/-- Whether every statement of a list, run in order from a state, succeeds. -/
def Store.succeedAll (s : Store σ) : σ → List String → Bool
  | _, [] => true
  | st, q :: qs =>
    (s.ExecContext st q []).1.isNone && Store.succeedAll s (s.ExecContext st q []).2 qs

/-- The table exists in a database state, as the existence query reports it. -/
def upgrader.hasTable (u : upgrader σ) (st : σ) (table : String) : Bool :=
  match u.s.GetContext st tableExistsQuery [table] with
  | .ok found => found
  | .error _ => false

/-- A statement, run with its arguments, does not delete a table: from every
database state that reports the table, the state after the statement reports
it too. -/
def upgrader.keepsTable (u : upgrader σ) (sql : String) (aa : List String)
    (name : String) : Prop :=
  ∀ st, u.hasTable st name = true → u.hasTable (u.s.ExecContext st sql aa).2 name = true

/-- The names of the live columns of a table in a database state, when
introspection succeeds there. -/
def upgrader.liveColumns (imp : Imports σ) (u : upgrader σ) (table : String)
    (st : σ) : Option (List String) :=
  match (u.getColumns imp table { db := st, executed := [] }).1 with
  | (columns, none) => some (columns.map Column.Name)
  | (_, some _) => none

/-- ADD COLUMN has its intended effect from a state: if introspection succeeds
there and the statement succeeds, introspection succeeds after it and reports
the earlier names together with the name of the column. -/
def upgrader.addsColumn (imp : Imports σ) (u : upgrader σ) (table : String)
    (column : Column) (st : σ) : Prop :=
  ∀ names, u.liveColumns imp table st = some names →
    (u.s.ExecContext st (imp.AddColumn u.ddl table column) []).1 = none →
    ∃ names',
      u.liveColumns imp table
          (u.s.ExecContext st (imp.AddColumn u.ddl table column) []).2 = some names'
      ∧ ∀ n, n ∈ names' ↔ n ∈ names ∨ n = column.Name

/-- DROP COLUMN has its intended effect from a state: if introspection succeeds
there and the statement succeeds, introspection succeeds after it and reports
the earlier names without the name of the column. -/
def upgrader.dropsColumn (imp : Imports σ) (u : upgrader σ) (table column : String)
    (st : σ) : Prop :=
  ∀ names, u.liveColumns imp table st = some names →
    (u.s.ExecContext st (imp.DropColumn u.ddl table column) []).1 = none →
    ∃ names',
      u.liveColumns imp table
          (u.s.ExecContext st (imp.DropColumn u.ddl table column) []).2 = some names'
      ∧ ∀ n, n ∈ names' ↔ n ∈ names ∧ n ≠ column

/-- RENAME COLUMN has its intended effect from a state: if introspection
succeeds there and the statement succeeds, introspection succeeds after it and
reports the earlier names with the old name replaced by the new one. -/
def upgrader.renamesColumn (imp : Imports σ) (u : upgrader σ)
    (table oldName newName : String) (st : σ) : Prop :=
  ∀ names, u.liveColumns imp table st = some names →
    (u.s.ExecContext st (imp.RenameColumn u.ddl table oldName newName) []).1 = none →
    ∃ names',
      u.liveColumns imp table
          (u.s.ExecContext st (imp.RenameColumn u.ddl table oldName newName) []).2
        = some names'
      ∧ ∀ n, n ∈ names' ↔ (n ∈ names ∧ n ≠ oldName) ∨ (n = newName ∧ oldName ∈ names)

/-! ## A sample database -/

/-- A small database state: the tables present, the PRAGMA rows of the table
under upgrade, whether the connection is down, and the statements the engine
rejects. -/
structure Db where
  tables : List String
  rows : List col
  down : Bool := false
  rejected : List String := []
deriving DecidableEq, Repr

/-- The table a DROP TABLE statement names, if the statement is one. -/
def dropTarget (sql : String) : Option String :=
  if "DROP TABLE ".toList.isPrefixOf sql.toList then some (String.mk (sql.toList.drop 11))
  else none

/-- A store over the sample database: rejected statements fail, DROP TABLE
removes the table it names, other statements leave the tables alone; queries
fail while the connection is down. -/
def sampleStore : Store Db where
  Config := { DBName := "corteza" }
  ExecContext st sql _ :=
    if sql ∈ st.rejected then (some (.driver "statement rejected"), st)
    else
      match dropTarget sql with
      | some t => (none, { st with tables := st.tables.filter (fun n => n != t) })
      | none => (none, st)
  GetContext st _ args :=
    if st.down then .error (.driver "connection lost")
    else .ok (args.any (fun a => decide (a ∈ st.tables)))
  SelectContext st _ _ :=
    if st.down then .error (.driver "connection lost") else .ok st.rows

/-- Sample imports: a generator rendering short statements. -/
def sampleImports : Imports Db where
  NewGenerator := { funcs := fun _ => none }
  ColumnTypeTimestamp := 4
  ColumnTypeBinary := 3
  distinct := by decide
  GenColumnType _ := "TEXT"
  CreateTable _ t := "CREATE TABLE " ++ t.Name
  CreateIndex _ i := "CREATE INDEX " ++ i.Name ++ " ON " ++ i.Table
  AddColumn _ table c := "ALTER TABLE " ++ table ++ " ADD COLUMN " ++ c.Name
  DropColumn _ table c := "ALTER TABLE " ++ table ++ " DROP COLUMN " ++ c
  RenameColumn _ table o n := "ALTER TABLE " ++ table ++ " RENAME COLUMN " ++ o ++ " TO " ++ n
  GenericBefore _ w := (none, w)
  GenericAfter _ w := (none, w)
  GenericUpgrade _ _ w := (none, w)
  quote s := "\"" ++ s ++ "\""

/-- The sample upgrader. -/
def sampleUpgrader : upgrader Db := NewUpgrader sampleImports sampleStore

/-- A database holding the table users with the columns id and email. -/
def usersDb : Db :=
  { tables := ["users"], rows := [{ Name := "id", NotNull := true }, { Name := "email" }] }

/-- The world of usersDb before any statement. -/
def usersWorld : World Db := { db := usersDb, executed := [] }

/-- An empty database. -/
def emptyWorld : World Db := { db := { tables := [], rows := [] }, executed := [] }

/-- The model of the table users, with two indexes. -/
def usersTable : Table :=
  { Name := "users"
    Columns := [{ Name := "id" }, { Name := "email" }]
    Indexes := [{ Name := "users_email", Table := "users", Fields := ["email"], Unique := true },
                { Name := "users_id", Table := "users", Fields := ["id"] }] }

/-- A database without tables whose engine rejects the second index of users. -/
def rejectingIndexWorld : World Db :=
  { db := { tables := [], rows := [], rejected := ["CREATE INDEX users_id ON users"] }
    executed := [] }

/-- A database without tables whose engine rejects CREATE TABLE users. -/
def rejectingCreateWorld : World Db :=
  { db := { tables := [], rows := [], rejected := ["CREATE TABLE users"] }
    executed := [] }

/-- The database of users whose engine rejects DROP TABLE users. -/
def rejectingDropWorld : World Db :=
  { db := { usersDb with rejected := ["DROP TABLE users"] }, executed := [] }

/-- The database of users with the connection down. -/
def downWorld : World Db :=
  { db := { usersDb with down := true }, executed := [] }

/-- The database of users reporting its columns in the other order, after one
earlier statement. -/
def swappedUsersWorld : World Db :=
  { db := { tables := ["users"], rows := [{ Name := "email" }, { Name := "id", NotNull := true }] }
    executed := ["CREATE TABLE users"] }

/-- The words of a statement, split at the blanks. -/
def splitWords (cs : List Char) : List String :=
  (cs.foldr (fun c acc =>
    if c = ' ' then [] :: acc
    else
      match acc with
      | [] => [[c]]
      | word :: rest => (c :: word) :: rest) [[]]).map String.mk

/-- A store over the sample database on which the column statements of the
sample generator act on the rows: ADD COLUMN appends a row of the name, DROP
COLUMN removes the rows of the name, RENAME COLUMN renames them; rejected
statements fail and queries fail while the connection is down. -/
def columnStore : Store Db where
  Config := { DBName := "corteza" }
  ExecContext st sql _ :=
    if sql ∈ st.rejected then (some (.driver "statement rejected"), st)
    else
      match splitWords sql.toList with
      | ["ALTER", "TABLE", _, "ADD", "COLUMN", c] =>
        (none, { st with rows := st.rows ++ [{ Name := c }] })
      | ["ALTER", "TABLE", _, "DROP", "COLUMN", c] =>
        (none, { st with rows := st.rows.filter (fun r => r.Name != c) })
      | ["ALTER", "TABLE", _, "RENAME", "COLUMN", o, "TO", n] =>
        (none, { st with
          rows := st.rows.map (fun r => if r.Name = o then { r with Name := n } else r) })
      | _ => (none, st)
  GetContext st _ args :=
    if st.down then .error (.driver "connection lost")
    else .ok (args.any (fun a => decide (a ∈ st.tables)))
  SelectContext st _ _ :=
    if st.down then .error (.driver "connection lost") else .ok st.rows

/-- The sample upgrader over the store of column statements. -/
def columnUpgrader : upgrader Db := NewUpgrader sampleImports columnStore

/-- A database holding the tables users and roles. -/
def twoTablesWorld : World Db :=
  { db := { tables := ["users", "roles"], rows := [{ Name := "id" }] }, executed := [] }

/-! ## Lemmas on the lookups -/

theorem Columns.Get_isSome_iff (cc : List Column) (name : String) :
    (Columns.Get cc name).isSome = true ↔ name ∈ cc.map Column.Name := by
  induction cc with
  | nil => simp [Columns.Get]
  | cons c cs ih =>
    by_cases h : c.Name = name
    · simp [Columns.Get, List.find?, h]
    · have h' : (c.Name == name) = false := by simpa using h
      have ih' := ih
      simp only [Columns.Get] at ih'
      simp only [Columns.Get, List.find?, h', List.map_cons, List.mem_cons]
      rw [ih']
      constructor
      · intro hm; exact Or.inr hm
      · rintro (he | hm)
        · exact absurd he.symm h
        · exact hm

theorem Columns.Get_isNone_iff (cc : List Column) (name : String) :
    (Columns.Get cc name).isNone = true ↔ name ∉ cc.map Column.Name := by
  rw [← Columns.Get_isSome_iff]
  cases Columns.Get cc name <;> simp

theorem upgrader.getColumns_world (imp : Imports σ) (u : upgrader σ) (table : String)
    (w : World σ) : (u.getColumns imp table w).2 = w := by
  unfold upgrader.getColumns
  dsimp only
  split <;> rfl

theorem upgrader.getColumns_eq (imp : Imports σ) (u : upgrader σ) (table : String)
    (w : World σ) (r : List Column × Option Error)
    (h : (u.getColumns imp table w).1 = r) : u.getColumns imp table w = (r, w) :=
  Prod.ext h (upgrader.getColumns_world imp u table w)

/-! ## RenameColumn -/

/-- C1: when the old name is among the live columns and the new name is not,
with introspection and the statement succeeding, RenameColumn executes exactly
one statement, the RenameColumn text of the generator, and returns changed =
true with no error. -/
theorem RenameColumn_old_present_new_absent (imp : Imports σ) (u : upgrader σ)
    (table oldName newName : String) (w : World σ) (live : List Column)
    (hlive : (u.getColumns imp table w).1 = (live, none))
    (hold : oldName ∈ live.map Column.Name)
    (hnew : newName ∉ live.map Column.Name)
    (hexec : (u.s.ExecContext w.db (imp.RenameColumn u.ddl table oldName newName) []).1 = none) :
    u.RenameColumn imp table oldName newName w =
      ((true, none),
       { db := (u.s.ExecContext w.db (imp.RenameColumn u.ddl table oldName newName) []).2
         executed := w.executed ++ [imp.RenameColumn u.ddl table oldName newName] }) := by
  have hne : oldName ≠ newName := fun h => hnew (h ▸ hold)
  have hg := upgrader.getColumns_eq imp u table w _ hlive
  have h1 : (Columns.Get live oldName).isNone = false := by
    have := (Columns.Get_isSome_iff live oldName).2 hold
    cases hc : Columns.Get live oldName <;> simp_all
  have h2 : (Columns.Get live newName).isSome = false := by
    have := (Columns.Get_isNone_iff live newName).2 hnew
    cases hc : Columns.Get live newName <;> simp_all
  simp [upgrader.RenameColumn, hne, hg, h1, h2, upgrader.Exec, hexec]

/-- Witness of C1 on the sample database: renaming email to mail on users. -/
theorem RenameColumn_old_present_new_absent_witness :
    sampleUpgrader.RenameColumn sampleImports "users" "email" "mail" usersWorld =
      ((true, none),
       { db := usersDb, executed := ["ALTER TABLE users RENAME COLUMN email TO mail"] }) :=
  RenameColumn_old_present_new_absent sampleImports sampleUpgrader "users" "email" "mail"
    usersWorld [{ Name := "id" }, { Name := "email", IsNull := true }]
    (by decide) (by decide) (by decide) (by decide)

/-- C2: when the old name is not among the live columns and the new name is,
RenameColumn executes no statement and returns changed = false with a nil
error. -/
theorem RenameColumn_old_absent_new_present (imp : Imports σ) (u : upgrader σ)
    (table oldName newName : String) (w : World σ) (live : List Column)
    (hlive : (u.getColumns imp table w).1 = (live, none))
    (hold : oldName ∉ live.map Column.Name)
    (hnew : newName ∈ live.map Column.Name) :
    u.RenameColumn imp table oldName newName w = ((false, none), w) := by
  have hne : oldName ≠ newName := fun h => hold (h ▸ hnew)
  have hg := upgrader.getColumns_eq imp u table w _ hlive
  have h1 : (Columns.Get live oldName).isNone = true :=
    (Columns.Get_isNone_iff live oldName).2 hold
  have h2 : (Columns.Get live newName).isNone = false := by
    have := (Columns.Get_isSome_iff live newName).2 hnew
    cases hc : Columns.Get live newName <;> simp_all
  simp [upgrader.RenameColumn, hne, hg, h1, h2]

/-- Witness of C2 on the sample database: the rename of mail to email was
already applied. -/
theorem RenameColumn_old_absent_new_present_witness :
    sampleUpgrader.RenameColumn sampleImports "users" "mail" "email" usersWorld =
      ((false, none), usersWorld) :=
  RenameColumn_old_absent_new_present sampleImports sampleUpgrader "users" "mail" "email"
    usersWorld [{ Name := "id" }, { Name := "email", IsNull := true }]
    (by decide) (by decide) (by decide)

/-- C3, as stated, fails: renaming email to email on a table that has the column
email finds both names present, with introspection and execution succeeding,
yet RenameColumn returns no error. -/
theorem RenameColumn_same_name_no_error :
    (sampleUpgrader.getColumns sampleImports "users" usersWorld).1
        = ([{ Name := "id" }, { Name := "email", IsNull := true }], none)
      ∧ (sampleStore.ExecContext usersDb
          (sampleImports.RenameColumn sampleUpgrader.ddl "users" "email" "email") []).1 = none
      ∧ "email" ∈ ["id", "email"]
      ∧ ¬ ((sampleUpgrader.RenameColumn sampleImports "users" "email" "email" usersWorld).1.2 ≠ none
            ↔ ("email" ∉ ["id", "email"] ∧ "email" ∉ ["id", "email"])
              ∨ ("email" ∈ ["id", "email"] ∧ "email" ∈ ["id", "email"])) := by
  decide

/-- C3, amended: for two different names, with introspection and statement
execution succeeding, RenameColumn returns an error exactly when both names
are absent from the live columns (the error wraps "old and new columns are
missing") or both are present (it wraps "new column already exists"), and then
the world is unchanged and changed = false; for two equal names it returns
changed = false and no error and leaves the world unchanged. -/
theorem RenameColumn_error_iff (imp : Imports σ) (u : upgrader σ)
    (table oldName newName : String) (w : World σ) (live : List Column)
    (hlive : (u.getColumns imp table w).1 = (live, none))
    (hexec : (u.s.ExecContext w.db (imp.RenameColumn u.ddl table oldName newName) []).1 = none) :
    (oldName = newName → u.RenameColumn imp table oldName newName w = ((false, none), w))
    ∧ (oldName ≠ newName →
        ((u.RenameColumn imp table oldName newName w).1.2 ≠ none
          ↔ (oldName ∉ live.map Column.Name ∧ newName ∉ live.map Column.Name)
            ∨ (oldName ∈ live.map Column.Name ∧ newName ∈ live.map Column.Name))
        ∧ (oldName ∉ live.map Column.Name → newName ∉ live.map Column.Name →
            u.RenameColumn imp table oldName newName w =
              ((false, some (.wrapf "could not rename column %q on table %q to %q: %w"
                [oldName, table, newName] (.errorf "old and new columns are missing" []))), w))
        ∧ (oldName ∈ live.map Column.Name → newName ∈ live.map Column.Name →
            u.RenameColumn imp table oldName newName w =
              ((false, some (.wrapf "could not rename column %q on table %q to %q: %w"
                [oldName, table, newName] (.errorf "new column already exists" []))), w))) := by
  have hg := upgrader.getColumns_eq imp u table w _ hlive
  refine ⟨fun h => by simp [upgrader.RenameColumn, h], fun hne => ?_⟩
  have key : ∀ n, ((Columns.Get live n).isNone = true ↔ n ∉ live.map Column.Name)
      ∧ ((Columns.Get live n).isSome = true ↔ n ∈ live.map Column.Name) :=
    fun n => ⟨Columns.Get_isNone_iff live n, Columns.Get_isSome_iff live n⟩
  by_cases ho : oldName ∈ live.map Column.Name <;>
    by_cases hn : newName ∈ live.map Column.Name
  · have h1 : (Columns.Get live oldName).isNone = false := by
      have := (key oldName).2.2 ho
      cases hc : Columns.Get live oldName <;> simp_all
    have h2 : (Columns.Get live newName).isSome = true := (key newName).2.2 hn
    simp [upgrader.RenameColumn, hne, hg, h1, h2, ho, hn]
  · have h1 : (Columns.Get live oldName).isNone = false := by
      have := (key oldName).2.2 ho
      cases hc : Columns.Get live oldName <;> simp_all
    have h2 : (Columns.Get live newName).isSome = false := by
      have := (key newName).1.2 hn
      cases hc : Columns.Get live newName <;> simp_all
    simp [upgrader.RenameColumn, hne, hg, h1, h2, ho, hn, upgrader.Exec, hexec]
  · have h1 : (Columns.Get live oldName).isNone = true := (key oldName).1.2 ho
    have h2 : (Columns.Get live newName).isNone = false := by
      have := (key newName).2.2 hn
      cases hc : Columns.Get live newName <;> simp_all
    simp [upgrader.RenameColumn, hne, hg, h1, h2, ho, hn]
  · have h1 : (Columns.Get live oldName).isNone = true := (key oldName).1.2 ho
    have h2 : (Columns.Get live newName).isNone = true := (key newName).1.2 hn
    simp [upgrader.RenameColumn, hne, hg, h1, h2, ho, hn]

/-- Witness of the amended C3 on the sample database: renaming login to mail,
both absent from users. -/
theorem RenameColumn_error_iff_witness :
    sampleUpgrader.RenameColumn sampleImports "users" "login" "mail" usersWorld =
      ((false, some (.wrapf "could not rename column %q on table %q to %q: %w"
        ["login", "users", "mail"] (.errorf "old and new columns are missing" []))),
       usersWorld) :=
  ((RenameColumn_error_iff sampleImports sampleUpgrader "users" "login" "mail"
    usersWorld [{ Name := "id" }, { Name := "email", IsNull := true }]
    (by decide) (by decide)).2 (by decide)).2.1 (by decide) (by decide)

/-! ## AddColumn -/

/-- C4: with introspection succeeding, AddColumn executes the AddColumn text of
the generator exactly when no live column has the name of the column, and
executes nothing otherwise; when the name is absent and the statement
succeeds the result is added = true with no error, and when the name is
present the result is added = false with a nil error and the world is
unchanged. -/
theorem AddColumn_iff_absent (imp : Imports σ) (u : upgrader σ) (table : String)
    (column : Column) (w : World σ) (live : List Column)
    (hlive : (u.getColumns imp table w).1 = (live, none)) :
    (u.AddColumn imp table column w).2.executed =
        w.executed ++
          (if column.Name ∈ live.map Column.Name then []
           else [imp.AddColumn u.ddl table column])
    ∧ (column.Name ∉ live.map Column.Name →
        (u.s.ExecContext w.db (imp.AddColumn u.ddl table column) []).1 = none →
        u.AddColumn imp table column w =
          ((true, none),
           { db := (u.s.ExecContext w.db (imp.AddColumn u.ddl table column) []).2
             executed := w.executed ++ [imp.AddColumn u.ddl table column] }))
    ∧ (column.Name ∈ live.map Column.Name →
        u.AddColumn imp table column w = ((false, none), w)) := by
  have hg := upgrader.getColumns_eq imp u table w _ hlive
  by_cases hc : column.Name ∈ live.map Column.Name
  · have h1 : (Columns.Get live column.Name).isSome = true :=
      (Columns.Get_isSome_iff live column.Name).2 hc
    simp [upgrader.AddColumn, hg, h1, hc]
  · have h1 : (Columns.Get live column.Name).isSome = false := by
      have := (Columns.Get_isNone_iff live column.Name).2 hc
      cases hx : Columns.Get live column.Name <;> simp_all
    refine ⟨?_, fun _ hexec => ?_, fun h => absurd h hc⟩
    · simp only [upgrader.AddColumn, hg, h1, upgrader.Exec, if_neg hc]
      cases (u.s.ExecContext w.db (imp.AddColumn u.ddl table column) []).1 <;> simp
    · simp [upgrader.AddColumn, hg, h1, upgrader.Exec, hexec]

/-- Witness of C4 on the sample database: adding the column name to users. -/
theorem AddColumn_iff_absent_witness :
    sampleUpgrader.AddColumn sampleImports "users" { Name := "name" } usersWorld =
      ((true, none),
       { db := usersDb, executed := ["ALTER TABLE users ADD COLUMN name"] }) :=
  (AddColumn_iff_absent sampleImports sampleUpgrader "users" { Name := "name" }
    usersWorld [{ Name := "id" }, { Name := "email", IsNull := true }]
    (by decide)).2.1 (by decide) (by decide)

/-! ## CreateTable -/

theorem upgrader.createIndexes_succeed (imp : Imports σ) (u : upgrader σ)
    (idx : List Index) (w : World σ)
    (h : u.s.succeedAll w.db (idx.map (imp.CreateIndex u.ddl)) = true) :
    u.createIndexes imp idx w =
      (none, { db := u.s.execAll w.db (idx.map (imp.CreateIndex u.ddl))
               executed := w.executed ++ idx.map (imp.CreateIndex u.ddl) }) := by
  induction idx generalizing w with
  | nil => simp [upgrader.createIndexes, Store.execAll]
  | cons i rest ih =>
    simp only [List.map_cons, Store.succeedAll, Bool.and_eq_true, Option.isNone_iff_eq_none] at h
    have hstep : u.Exec (imp.CreateIndex u.ddl i) [] w =
        (none, { db := (u.s.ExecContext w.db (imp.CreateIndex u.ddl i) []).2
                 executed := w.executed ++ [imp.CreateIndex u.ddl i] }) := by
      simp [upgrader.Exec, h.1]
    simp only [upgrader.createIndexes, hstep]
    rw [ih _ h.2]
    simp [Store.execAll]

theorem upgrader.createIndexes_fail (imp : Imports σ) (u : upgrader σ)
    (pre : List Index) (i : Index) (post : List Index) (w : World σ) (e : Error)
    (h : u.s.succeedAll w.db (pre.map (imp.CreateIndex u.ddl)) = true)
    (hfail : (u.s.ExecContext (u.s.execAll w.db (pre.map (imp.CreateIndex u.ddl)))
      (imp.CreateIndex u.ddl i) []).1 = some e) :
    u.createIndexes imp (pre ++ i :: post) w =
      (some (.wrapf "could not create index %s on table %s: %w" [i.Name, i.Table] e),
       { db := (u.s.ExecContext (u.s.execAll w.db (pre.map (imp.CreateIndex u.ddl)))
                 (imp.CreateIndex u.ddl i) []).2
         executed := w.executed ++ (pre ++ [i]).map (imp.CreateIndex u.ddl) }) := by
  induction pre generalizing w with
  | nil =>
    simp only [List.map_nil, Store.execAll] at hfail
    simp [upgrader.createIndexes, upgrader.Exec, hfail, Store.execAll]
  | cons p rest ih =>
    simp only [List.map_cons, Store.succeedAll, Bool.and_eq_true, Option.isNone_iff_eq_none] at h
    simp only [List.map_cons, Store.execAll] at hfail
    have hstep : u.Exec (imp.CreateIndex u.ddl p) [] w =
        (none, { db := (u.s.ExecContext w.db (imp.CreateIndex u.ddl p) []).2
                 executed := w.executed ++ [imp.CreateIndex u.ddl p] }) := by
      simp [upgrader.Exec, h.1]
    have hrest := ih { db := (u.s.ExecContext w.db (imp.CreateIndex u.ddl p) []).2
                       executed := w.executed ++ [imp.CreateIndex u.ddl p] } h.2 hfail
    simp [upgrader.createIndexes, hstep, hrest, Store.execAll]

/-- C5: when the existence query reports the table missing and every statement
succeeds, CreateTable executes exactly the CreateTable text of the generator
followed by the CreateIndex text of every index of the model in declaration
order, and returns nil. -/
theorem CreateTable_missing_table (imp : Imports σ) (u : upgrader σ) (t : Table)
    (w : World σ)
    (hmissing : u.s.GetContext w.db tableExistsQuery [t.Name] = .ok false)
    (hexec : u.s.succeedAll w.db
      (imp.CreateTable u.ddl t :: t.Indexes.map (imp.CreateIndex u.ddl)) = true) :
    u.CreateTable imp t w =
      (none,
       { db := u.s.execAll w.db
           (imp.CreateTable u.ddl t :: t.Indexes.map (imp.CreateIndex u.ddl))
         executed := w.executed ++
           imp.CreateTable u.ddl t :: t.Indexes.map (imp.CreateIndex u.ddl) }) := by
  simp only [Store.succeedAll, Bool.and_eq_true, Option.isNone_iff_eq_none] at hexec
  have hstep : u.Exec (imp.CreateTable u.ddl t) [] w =
      (none, { db := (u.s.ExecContext w.db (imp.CreateTable u.ddl t) []).2
               executed := w.executed ++ [imp.CreateTable u.ddl t] }) := by
    simp [upgrader.Exec, hexec.1]
  simp only [upgrader.CreateTable, upgrader.TableExists, hmissing, hstep]
  rw [upgrader.createIndexes_succeed imp u t.Indexes _ hexec.2]
  simp [Store.execAll]

/-- Witness of C5 on the empty sample database: users and its two indexes. -/
theorem CreateTable_missing_table_witness :
    sampleUpgrader.CreateTable sampleImports usersTable emptyWorld =
      (none,
       { db := { tables := [], rows := [] }
         executed := ["CREATE TABLE users", "CREATE INDEX users_email ON users",
                      "CREATE INDEX users_id ON users"] }) :=
  CreateTable_missing_table sampleImports sampleUpgrader usersTable emptyWorld
    rfl (by decide)

/-- C6: when the table is reported missing, CREATE TABLE and the CREATE INDEX
statements of the indexes before the j-th succeed and the CREATE INDEX of the
j-th index fails, CreateTable has executed CREATE TABLE and the CREATE INDEX
statements of the indexes up to the j-th in order, nothing for a later index,
and returns the failure wrapped with the name of the index and of its table. -/
theorem CreateTable_index_failure (imp : Imports σ) (u : upgrader σ) (t : Table)
    (w : World σ) (pre : List Index) (i : Index) (post : List Index) (e : Error)
    (hidx : t.Indexes = pre ++ i :: post)
    (hmissing : u.s.GetContext w.db tableExistsQuery [t.Name] = .ok false)
    (hexec : u.s.succeedAll w.db
      (imp.CreateTable u.ddl t :: pre.map (imp.CreateIndex u.ddl)) = true)
    (hfail : (u.s.ExecContext
      (u.s.execAll w.db (imp.CreateTable u.ddl t :: pre.map (imp.CreateIndex u.ddl)))
      (imp.CreateIndex u.ddl i) []).1 = some e) :
    u.CreateTable imp t w =
      (some (.wrapf "could not create index %s on table %s: %w" [i.Name, i.Table] e),
       { db := (u.s.ExecContext
           (u.s.execAll w.db (imp.CreateTable u.ddl t :: pre.map (imp.CreateIndex u.ddl)))
           (imp.CreateIndex u.ddl i) []).2
         executed := w.executed ++
           imp.CreateTable u.ddl t :: (pre ++ [i]).map (imp.CreateIndex u.ddl) }) := by
  simp only [Store.succeedAll, Bool.and_eq_true, Option.isNone_iff_eq_none] at hexec
  simp only [Store.execAll] at hfail
  have hstep : u.Exec (imp.CreateTable u.ddl t) [] w =
      (none, { db := (u.s.ExecContext w.db (imp.CreateTable u.ddl t) []).2
               executed := w.executed ++ [imp.CreateTable u.ddl t] }) := by
    simp [upgrader.Exec, hexec.1]
  simp only [upgrader.CreateTable, upgrader.TableExists, hmissing, hstep, hidx]
  rw [upgrader.createIndexes_fail imp u pre i post _ e hexec.2 hfail]
  simp [Store.execAll]

/-- Witness of C6 on the sample database: the second index of users fails. -/
theorem CreateTable_index_failure_witness :
    sampleUpgrader.CreateTable sampleImports usersTable rejectingIndexWorld =
      (some (.wrapf "could not create index %s on table %s: %w" ["users_id", "users"]
        (.driver "statement rejected")),
       { db := rejectingIndexWorld.db
         executed := ["CREATE TABLE users", "CREATE INDEX users_email ON users",
                      "CREATE INDEX users_id ON users"] }) :=
  CreateTable_index_failure sampleImports sampleUpgrader usersTable rejectingIndexWorld
    [{ Name := "users_email", Table := "users", Fields := ["email"], Unique := true }]
    { Name := "users_id", Table := "users", Fields := ["id"] } [] (.driver "statement rejected")
    (by decide) rfl (by decide) (by decide)

/-! ## Error wrapping -/

/-- C7 fails on the code: when CREATE TABLE of a missing table is rejected,
CreateTable returns the error of the driver itself, unwrapped; so does
DropTable when DROP TABLE of an existing table is rejected. -/
theorem CreateTable_DropTable_bare_error :
    (sampleStore.ExecContext rejectingCreateWorld.db
        (sampleImports.CreateTable sampleUpgrader.ddl usersTable) []).1
        = some (.driver "statement rejected")
      ∧ sampleUpgrader.CreateTable sampleImports usersTable rejectingCreateWorld
        = (some (.driver "statement rejected"),
           { db := rejectingCreateWorld.db, executed := ["CREATE TABLE users"] })
      ∧ (sampleStore.ExecContext rejectingDropWorld.db "DROP TABLE users" []).1
        = some (.driver "statement rejected")
      ∧ sampleUpgrader.DropTable "users" rejectingDropWorld
        = ((false, some (.driver "statement rejected")),
           { db := rejectingDropWorld.db, executed := ["DROP TABLE users"] }) :=
  ⟨rfl, rfl, rfl, rfl⟩

/-! ## The existence check -/

/-- C8: when the existence query fails, TableExists returns false together with
an error wrapping the failure of the query, and CreateTable returns that same
error and leaves the world unchanged: it executes no statement. -/
theorem existence_check_failure (imp : Imports σ) (u : upgrader σ) (w : World σ) :
    (∀ (table : String) (e : Error),
        u.s.GetContext w.db tableExistsQuery [table] = .error e →
        u.TableExists table w =
          ((false, some (.wrapf "could not check if table exists: %w" [] e)), w))
    ∧ (∀ (t : Table) (e : Error),
        u.s.GetContext w.db tableExistsQuery [t.Name] = .error e →
        u.CreateTable imp t w =
          (some (.wrapf "could not check if table exists: %w" [] e), w)) := by
  refine ⟨fun table e h => ?_, fun t e h => ?_⟩
  · simp [upgrader.TableExists, h]
  · simp [upgrader.CreateTable, upgrader.TableExists, h]

/-- Witness of C8 on the sample database with the connection down. -/
theorem existence_check_failure_witness :
    sampleUpgrader.CreateTable sampleImports usersTable downWorld =
      (some (.wrapf "could not check if table exists: %w" [] (.driver "connection lost")),
       downWorld) :=
  (existence_check_failure sampleImports sampleUpgrader downWorld).2 usersTable
    (.driver "connection lost") rfl

/-! ## The column type rendering -/

/-- C10: the columnType template function NewUpgrader installs renders
"TIMESTAMP" for every timestamp column type, "BLOB" for every binary column
type, and for every other column type what GenColumnType renders. -/
theorem NewUpgrader_columnType (imp : Imports σ) (store : Store σ) :
    (NewUpgrader imp store).ddl.funcs "columnType" = some (columnType imp)
    ∧ ∀ ct : ColumnType,
        (ct.Typ = imp.ColumnTypeTimestamp → columnType imp ct = "TIMESTAMP")
        ∧ (ct.Typ = imp.ColumnTypeBinary → columnType imp ct = "BLOB")
        ∧ (ct.Typ ≠ imp.ColumnTypeTimestamp → ct.Typ ≠ imp.ColumnTypeBinary →
            columnType imp ct = imp.GenColumnType ct) := by
  refine ⟨by simp [NewUpgrader, Generator.AddTemplateFunc], fun ct => ⟨?_, ?_, ?_⟩⟩
  · intro h
    simp [columnType, h]
  · intro h
    have hne : ct.Typ ≠ imp.ColumnTypeTimestamp := fun h' => imp.distinct (h'.symm.trans h)
    simp [columnType, h, hne]
    intro h'
    exact absurd (h ▸ h') hne
  · intro h1 h2
    simp [columnType, h1, h2]

/-- Witness of C10 on the sample imports: a binary column type. -/
theorem NewUpgrader_columnType_witness :
    columnType sampleImports { Typ := 3 } = "BLOB" :=
  ((NewUpgrader_columnType sampleImports sampleStore).2 { Typ := 3 }).2.1 (by decide)

/-! ## Tables are kept -/

theorem upgrader.createIndexes_keeps (imp : Imports σ) (u : upgrader σ) (name : String)
    (idx : List Index) (w : World σ)
    (hk : ∀ i ∈ idx, u.keepsTable (imp.CreateIndex u.ddl i) [] name)
    (h : u.hasTable w.db name = true) :
    u.hasTable (u.createIndexes imp idx w).2.db name = true := by
  induction idx generalizing w with
  | nil => simpa [upgrader.createIndexes] using h
  | cons i rest ih =>
    have h1 : u.hasTable (u.Exec (imp.CreateIndex u.ddl i) [] w).2.db name = true :=
      hk i (List.mem_cons_self i rest) w.db h
    have hrest := ih (u.Exec (imp.CreateIndex u.ddl i) [] w).2
      (fun j hj => hk j (List.mem_cons_of_mem i hj)) h1
    unfold upgrader.createIndexes
    rcases hex : u.Exec (imp.CreateIndex u.ddl i) [] w with ⟨_ | e, w2⟩
    · rw [hex] at hrest
      simpa using hrest
    · rw [hex] at h1
      simpa using h1

theorem upgrader.TableExists_of_hasTable (u : upgrader σ) (table : String) (w : World σ)
    (h : u.hasTable w.db table = true) : u.TableExists table w = ((true, none), w) := by
  unfold upgrader.hasTable at h
  unfold upgrader.TableExists
  cases hq : u.s.GetContext w.db tableExistsQuery [table] with
  | error e => simp [hq] at h
  | ok found =>
    rw [hq] at h
    simp only at h
    subst h
    rfl

theorem upgrader.TableExists_of_not_hasTable (u : upgrader σ) (table : String)
    (w : World σ) (h : u.hasTable w.db table = false) :
    (u.TableExists table w).2 = w
      ∧ ((u.TableExists table w).1 = (false, none)
          ∨ ∃ err, (u.TableExists table w).1 = (false, some err)) := by
  unfold upgrader.hasTable at h
  unfold upgrader.TableExists
  cases hq : u.s.GetContext w.db tableExistsQuery [table] with
  | error e => exact ⟨rfl, Or.inr ⟨_, rfl⟩⟩
  | ok found =>
    rw [hq] at h
    simp only at h
    subst h
    exact ⟨rfl, Or.inl rfl⟩

/-- C9, as stated, fails: DropTable on the existing table users executes DROP
TABLE users, and the table, reported before the call, is not reported after;
Exec given the same statement deletes the table too. -/
theorem DropTable_deletes_table :
    sampleUpgrader.hasTable usersWorld.db "users" = true
      ∧ (sampleUpgrader.DropTable "users" usersWorld).1 = (true, none)
      ∧ (sampleUpgrader.DropTable "users" usersWorld).2.executed = ["DROP TABLE users"]
      ∧ sampleUpgrader.hasTable (sampleUpgrader.DropTable "users" usersWorld).2.db "users"
          = false
      ∧ sampleUpgrader.hasTable
          (sampleUpgrader.Exec "DROP TABLE users" [] usersWorld).2.db "users" = false := by
  decide

/-- C9, amended: a table the database reports before a call of any operation of
the upgrader is still reported after it, provided the statements that operation
executes do not delete it.  TableExists, TableSchema, AddPrimaryKey and
getColumns leave the world as it is; Exec executes the statement it is given;
DropTable executes DROP TABLE of its table exactly when that table is reported,
and otherwise leaves the world as it is; AddColumn, DropColumn and RenameColumn
depend on the ADD, DROP or RENAME COLUMN statement of the call; CreateTable
depends on the CREATE TABLE and CREATE INDEX statements of the model and, for a
table that is reported, is the generic upgrade, as upgradeTable is; Before and
After are the generic steps run before and after all tables. -/
theorem operations_keep_tables (imp : Imports σ) (u : upgrader σ) (w : World σ)
    (name : String) (hname : u.hasTable w.db name = true) :
    (∀ table, (u.TableExists table w).2 = w)
    ∧ (∀ table, (u.TableSchema table w).2 = w)
    ∧ (∀ table ind, (u.AddPrimaryKey table ind w).2 = w)
    ∧ (∀ table, (u.getColumns imp table w).2 = w)
    ∧ (∀ sql aa, (u.Exec sql aa w).2.executed = w.executed ++ [sql]
        ∧ (u.keepsTable sql aa name → u.hasTable (u.Exec sql aa w).2.db name = true))
    ∧ (∀ table,
        (u.DropTable table w).2 =
          (if u.hasTable w.db table = true then
            { db := (u.s.ExecContext w.db ("DROP TABLE " ++ table) []).2
              executed := w.executed ++ ["DROP TABLE " ++ table] }
           else w)
        ∧ (u.keepsTable ("DROP TABLE " ++ table) [] name →
            u.hasTable (u.DropTable table w).2.db name = true))
    ∧ (∀ table column, u.keepsTable (imp.AddColumn u.ddl table column) [] name →
        u.hasTable (u.AddColumn imp table column w).2.db name = true)
    ∧ (∀ table column, u.keepsTable (imp.DropColumn u.ddl table column) [] name →
        u.hasTable (u.DropColumn imp table column w).2.db name = true)
    ∧ (∀ table oldName newName,
        u.keepsTable (imp.RenameColumn u.ddl table oldName newName) [] name →
        u.hasTable (u.RenameColumn imp table oldName newName w).2.db name = true)
    ∧ (∀ t : Table,
        (u.hasTable w.db t.Name = true → u.CreateTable imp t w = imp.GenericUpgrade u t w)
        ∧ (u.keepsTable (imp.CreateTable u.ddl t) [] name →
            (∀ i ∈ t.Indexes, u.keepsTable (imp.CreateIndex u.ddl i) [] name) →
            (u.hasTable w.db t.Name = true →
              u.hasTable (imp.GenericUpgrade u t w).2.db name = true) →
            u.hasTable (u.CreateTable imp t w).2.db name = true))
    ∧ (∀ t : Table, u.upgradeTable imp t w = imp.GenericUpgrade u t w)
    ∧ u.Before imp w = imp.GenericBefore u w
    ∧ u.After imp w = imp.GenericAfter u w := by
  refine ⟨?_, ?_, ?_, ?_, ?_, ?_, ?_, ?_, ?_, ?_, ?_, rfl, rfl⟩
  · intro table
    unfold upgrader.TableExists
    split <;> rfl
  · intro table
    rfl
  · intro table ind
    rfl
  · intro table
    exact upgrader.getColumns_world imp u table w
  · intro sql aa
    exact ⟨rfl, fun hk => hk w.db hname⟩
  · intro table
    cases ht : u.hasTable w.db table
    · obtain ⟨hw, hres⟩ := upgrader.TableExists_of_not_hasTable u table w ht
      have hdrop : (u.DropTable table w).2 = w := by
        unfold upgrader.DropTable
        rcases hte : u.TableExists table w with ⟨⟨found, err⟩, w1⟩
        rw [hte] at hw hres
        simp only at hw
        subst hw
        rcases hres with h | ⟨e, h⟩
        · simp only [Prod.mk.injEq] at h
          obtain ⟨h1, h2⟩ := h
          subst h1 h2
          rfl
        · simp only [Prod.mk.injEq] at h
          obtain ⟨h1, h2⟩ := h
          subst h1 h2
          rfl
      refine ⟨by simpa using hdrop, fun _ => ?_⟩
      rw [hdrop]
      exact hname
    · have hte := upgrader.TableExists_of_hasTable u table w ht
      have hdrop : (u.DropTable table w).2 =
          { db := (u.s.ExecContext w.db ("DROP TABLE " ++ table) []).2
            executed := w.executed ++ ["DROP TABLE " ++ table] } := by
        unfold upgrader.DropTable
        rw [hte]
        simp only [upgrader.Exec]
        cases (u.s.ExecContext w.db ("DROP TABLE " ++ table) []).1 <;> rfl
      refine ⟨by simpa using hdrop, fun hk => ?_⟩
      rw [hdrop]
      exact hk w.db hname
  · intro table column hk
    have hex : u.hasTable (u.Exec (imp.AddColumn u.ddl table column) [] w).2.db name = true :=
      hk w.db hname
    have hg := upgrader.getColumns_eq imp u table w _ rfl
    rcases hr : (u.getColumns imp table w).1 with ⟨cols, _ | e⟩
    · rw [hr] at hg
      by_cases hc : (Columns.Get cols column.Name).isSome = true
      · simpa [upgrader.AddColumn, hg, hc] using hname
      · rcases hx : u.Exec (imp.AddColumn u.ddl table column) [] w with ⟨_ | e, w2⟩ <;>
          rw [hx] at hex <;> simpa [upgrader.AddColumn, hg, hc, hx] using hex
    · rw [hr] at hg
      simpa [upgrader.AddColumn, hg] using hname
  · intro table column hk
    have hex : u.hasTable (u.Exec (imp.DropColumn u.ddl table column) [] w).2.db name = true :=
      hk w.db hname
    have hg := upgrader.getColumns_eq imp u table w _ rfl
    rcases hr : (u.getColumns imp table w).1 with ⟨cols, _ | e⟩
    · rw [hr] at hg
      by_cases hc : (Columns.Get cols column).isNone = true
      · simpa [upgrader.DropColumn, hg, hc] using hname
      · rcases hx : u.Exec (imp.DropColumn u.ddl table column) [] w with ⟨_ | e, w2⟩ <;>
          rw [hx] at hex <;> simpa [upgrader.DropColumn, hg, hc, hx] using hex
    · rw [hr] at hg
      simpa [upgrader.DropColumn, hg] using hname
  · intro table oldName newName hk
    have hex : u.hasTable
        (u.Exec (imp.RenameColumn u.ddl table oldName newName) [] w).2.db name = true :=
      hk w.db hname
    by_cases hne : oldName = newName
    · simpa [upgrader.RenameColumn, hne] using hname
    have hg := upgrader.getColumns_eq imp u table w _ rfl
    rcases hr : (u.getColumns imp table w).1 with ⟨cols, _ | e⟩
    · rw [hr] at hg
      by_cases ho : (Columns.Get cols oldName).isNone = true
      · by_cases hn : (Columns.Get cols newName).isNone = true
        · simpa [upgrader.RenameColumn, hne, hg, ho, hn] using hname
        · simpa [upgrader.RenameColumn, hne, hg, ho, hn] using hname
      · by_cases hn : (Columns.Get cols newName).isSome = true
        · simpa [upgrader.RenameColumn, hne, hg, ho, hn] using hname
        · rcases hx : u.Exec (imp.RenameColumn u.ddl table oldName newName) [] w
            with ⟨_ | e, w2⟩ <;>
            rw [hx] at hex <;> simpa [upgrader.RenameColumn, hne, hg, ho, hn, hx] using hex
    · rw [hr] at hg
      simpa [upgrader.RenameColumn, hne, hg] using hname
  · intro t
    constructor
    · intro ht
      unfold upgrader.CreateTable
      rw [upgrader.TableExists_of_hasTable u t.Name w ht]
      rfl
    · intro hkt hki hgen
      cases ht : u.hasTable w.db t.Name
      · have hex : u.hasTable (u.Exec (imp.CreateTable u.ddl t) [] w).2.db name = true :=
          hkt w.db hname
        have hidx := upgrader.createIndexes_keeps imp u name t.Indexes
          (u.Exec (imp.CreateTable u.ddl t) [] w).2 hki hex
        unfold upgrader.hasTable at ht
        unfold upgrader.CreateTable upgrader.TableExists
        rcases hq : u.s.GetContext w.db tableExistsQuery [t.Name] with e | found
        · simpa using hname
        · rw [hq] at ht
          simp only at ht
          subst ht
          rcases hx : u.Exec (imp.CreateTable u.ddl t) [] w with ⟨_ | e, w2⟩
          · rw [hx] at hidx
            simpa [hx] using hidx
          · rw [hx] at hex
            simpa [hx] using hex
      · have hct : u.CreateTable imp t w = imp.GenericUpgrade u t w := by
          unfold upgrader.CreateTable
          rw [upgrader.TableExists_of_hasTable u t.Name w ht]
          rfl
        rw [hct]
        exact hgen ht
  · intro t
    rfl

theorem sample_hasTable (st : Db) (name : String) :
    sampleUpgrader.hasTable st name = (!st.down && decide (name ∈ st.tables)) := by
  simp only [upgrader.hasTable, sampleUpgrader, NewUpgrader, sampleStore]
  cases st.down <;> simp

theorem sample_keepsTable_users :
    sampleUpgrader.keepsTable "DROP TABLE roles" [] "users" := by
  intro st ht
  have hd : dropTarget "DROP TABLE roles" = some "roles" := by decide
  have hexec : (sampleUpgrader.s.ExecContext st "DROP TABLE roles" []).2 =
      if "DROP TABLE roles" ∈ st.rejected then st
      else { st with tables := st.tables.filter (fun n => n != "roles") } := by
    simp only [sampleUpgrader, NewUpgrader, sampleStore, hd]
    split <;> rfl
  rw [hexec]
  split
  · exact ht
  · rw [sample_hasTable] at ht ⊢
    simp only [Bool.and_eq_true, Bool.not_eq_true', decide_eq_true_eq] at ht ⊢
    refine ⟨ht.1, List.mem_filter.2 ⟨ht.2, by decide⟩⟩

/-- Witness of the amended C9 on the sample database: users is still reported
after DropTable of roles. -/
theorem operations_keep_tables_witness :
    sampleUpgrader.hasTable (sampleUpgrader.DropTable "roles" twoTablesWorld).2.db "users"
      = true :=
  ((operations_keep_tables sampleImports sampleUpgrader twoTablesWorld "users"
    (by decide)).2.2.2.2.2.1 "roles").2 sample_keepsTable_users

/-! ## The order of the live columns -/

theorem Columns.Get_isSome_perm (l₁ l₂ : List Column) (h : l₁.Perm l₂) (name : String) :
    (Columns.Get l₁ name).isSome = (Columns.Get l₂ name).isSome := by
  rw [Bool.eq_iff_iff, Columns.Get_isSome_iff, Columns.Get_isSome_iff]
  exact (h.map Column.Name).mem_iff

theorem Columns.Get_isNone_perm (l₁ l₂ : List Column) (h : l₁.Perm l₂) (name : String) :
    (Columns.Get l₁ name).isNone = (Columns.Get l₂ name).isNone := by
  rw [Bool.eq_iff_iff, Columns.Get_isNone_iff, Columns.Get_isNone_iff]
  exact not_congr (h.map Column.Name).mem_iff

/-- C11: when introspection yields, in two worlds, live column lists that are
permutations of each other, and the database answers the statement of the call
alike in both, AddColumn, DropColumn and RenameColumn each return the same
flag and the same error or success in both worlds and execute the same
statements there. -/
theorem column_operations_perm (imp : Imports σ) (u : upgrader σ) (table : String)
    (w₁ w₂ : World σ) (live₁ live₂ : List Column)
    (hlive₁ : (u.getColumns imp table w₁).1 = (live₁, none))
    (hlive₂ : (u.getColumns imp table w₂).1 = (live₂, none))
    (hperm : live₁.Perm live₂) :
    (∀ column : Column,
        (u.s.ExecContext w₁.db (imp.AddColumn u.ddl table column) []).1
          = (u.s.ExecContext w₂.db (imp.AddColumn u.ddl table column) []).1 →
        (u.AddColumn imp table column w₁).1 = (u.AddColumn imp table column w₂).1
        ∧ ∃ stmts, (u.AddColumn imp table column w₁).2.executed = w₁.executed ++ stmts
            ∧ (u.AddColumn imp table column w₂).2.executed = w₂.executed ++ stmts)
    ∧ (∀ column : String,
        (u.s.ExecContext w₁.db (imp.DropColumn u.ddl table column) []).1
          = (u.s.ExecContext w₂.db (imp.DropColumn u.ddl table column) []).1 →
        (u.DropColumn imp table column w₁).1 = (u.DropColumn imp table column w₂).1
        ∧ ∃ stmts, (u.DropColumn imp table column w₁).2.executed = w₁.executed ++ stmts
            ∧ (u.DropColumn imp table column w₂).2.executed = w₂.executed ++ stmts)
    ∧ (∀ oldName newName : String,
        (u.s.ExecContext w₁.db (imp.RenameColumn u.ddl table oldName newName) []).1
          = (u.s.ExecContext w₂.db (imp.RenameColumn u.ddl table oldName newName) []).1 →
        (u.RenameColumn imp table oldName newName w₁).1
          = (u.RenameColumn imp table oldName newName w₂).1
        ∧ ∃ stmts,
            (u.RenameColumn imp table oldName newName w₁).2.executed = w₁.executed ++ stmts
            ∧ (u.RenameColumn imp table oldName newName w₂).2.executed
                = w₂.executed ++ stmts) := by
  have hg₁ := upgrader.getColumns_eq imp u table w₁ _ hlive₁
  have hg₂ := upgrader.getColumns_eq imp u table w₂ _ hlive₂
  refine ⟨fun column hexec => ?_, fun column hexec => ?_, fun oldName newName hexec => ?_⟩
  · have hs := Columns.Get_isSome_perm live₁ live₂ hperm column.Name
    cases hc : (Columns.Get live₂ column.Name).isSome
    · rw [hc] at hs
      cases hx : (u.s.ExecContext w₂.db (imp.AddColumn u.ddl table column) []).1
      · have hx₁ := hexec.trans hx
        exact ⟨by simp [upgrader.AddColumn, hg₁, hg₂, hs, hc, upgrader.Exec, hx, hx₁],
          [imp.AddColumn u.ddl table column],
          by simp [upgrader.AddColumn, hg₁, hs, upgrader.Exec, hx₁],
          by simp [upgrader.AddColumn, hg₂, hc, upgrader.Exec, hx]⟩
      · have hx₁ := hexec.trans hx
        exact ⟨by simp [upgrader.AddColumn, hg₁, hg₂, hs, hc, upgrader.Exec, hx, hx₁],
          [imp.AddColumn u.ddl table column],
          by simp [upgrader.AddColumn, hg₁, hs, upgrader.Exec, hx₁],
          by simp [upgrader.AddColumn, hg₂, hc, upgrader.Exec, hx]⟩
    · rw [hc] at hs
      exact ⟨by simp [upgrader.AddColumn, hg₁, hg₂, hs, hc], [],
        by simp [upgrader.AddColumn, hg₁, hs], by simp [upgrader.AddColumn, hg₂, hc]⟩
  · have hs := Columns.Get_isNone_perm live₁ live₂ hperm column
    cases hc : (Columns.Get live₂ column).isNone
    · rw [hc] at hs
      cases hx : (u.s.ExecContext w₂.db (imp.DropColumn u.ddl table column) []).1
      · have hx₁ := hexec.trans hx
        exact ⟨by simp [upgrader.DropColumn, hg₁, hg₂, hs, hc, upgrader.Exec, hx, hx₁],
          [imp.DropColumn u.ddl table column],
          by simp [upgrader.DropColumn, hg₁, hs, upgrader.Exec, hx₁],
          by simp [upgrader.DropColumn, hg₂, hc, upgrader.Exec, hx]⟩
      · have hx₁ := hexec.trans hx
        exact ⟨by simp [upgrader.DropColumn, hg₁, hg₂, hs, hc, upgrader.Exec, hx, hx₁],
          [imp.DropColumn u.ddl table column],
          by simp [upgrader.DropColumn, hg₁, hs, upgrader.Exec, hx₁],
          by simp [upgrader.DropColumn, hg₂, hc, upgrader.Exec, hx]⟩
    · rw [hc] at hs
      exact ⟨by simp [upgrader.DropColumn, hg₁, hg₂, hs, hc], [],
        by simp [upgrader.DropColumn, hg₁, hs], by simp [upgrader.DropColumn, hg₂, hc]⟩
  · by_cases hne : oldName = newName
    · exact ⟨by simp [upgrader.RenameColumn, hne], [],
        by simp [upgrader.RenameColumn, hne], by simp [upgrader.RenameColumn, hne]⟩
    have ho := Columns.Get_isNone_perm live₁ live₂ hperm oldName
    have hn := Columns.Get_isNone_perm live₁ live₂ hperm newName
    have hn' := Columns.Get_isSome_perm live₁ live₂ hperm newName
    cases hco : (Columns.Get live₂ oldName).isNone
    · rw [hco] at ho
      cases hcn : (Columns.Get live₂ newName).isSome
      · rw [hcn] at hn'
        cases hx : (u.s.ExecContext w₂.db (imp.RenameColumn u.ddl table oldName newName) []).1
        · have hx₁ := hexec.trans hx
          exact ⟨by simp [upgrader.RenameColumn, hne, hg₁, hg₂, ho, hco, hn', hcn,
              upgrader.Exec, hx, hx₁],
            [imp.RenameColumn u.ddl table oldName newName],
            by simp [upgrader.RenameColumn, hne, hg₁, ho, hn', upgrader.Exec, hx₁],
            by simp [upgrader.RenameColumn, hne, hg₂, hco, hcn, upgrader.Exec, hx]⟩
        · have hx₁ := hexec.trans hx
          exact ⟨by simp [upgrader.RenameColumn, hne, hg₁, hg₂, ho, hco, hn', hcn,
              upgrader.Exec, hx, hx₁],
            [imp.RenameColumn u.ddl table oldName newName],
            by simp [upgrader.RenameColumn, hne, hg₁, ho, hn', upgrader.Exec, hx₁],
            by simp [upgrader.RenameColumn, hne, hg₂, hco, hcn, upgrader.Exec, hx]⟩
      · rw [hcn] at hn'
        exact ⟨by simp [upgrader.RenameColumn, hne, hg₁, hg₂, ho, hco, hn', hcn], [],
          by simp [upgrader.RenameColumn, hne, hg₁, ho, hn'],
          by simp [upgrader.RenameColumn, hne, hg₂, hco, hcn]⟩
    · rw [hco] at ho
      cases hcn : (Columns.Get live₂ newName).isNone
      · rw [hcn] at hn
        exact ⟨by simp [upgrader.RenameColumn, hne, hg₁, hg₂, ho, hco, hn, hcn], [],
          by simp [upgrader.RenameColumn, hne, hg₁, ho, hn],
          by simp [upgrader.RenameColumn, hne, hg₂, hco, hcn]⟩
      · rw [hcn] at hn
        exact ⟨by simp [upgrader.RenameColumn, hne, hg₁, hg₂, ho, hco, hn, hcn], [],
          by simp [upgrader.RenameColumn, hne, hg₁, ho, hn],
          by simp [upgrader.RenameColumn, hne, hg₂, hco, hcn]⟩

/-- Witness of C11 on the sample database: dropping email from users, whose
columns are reported as id, email in one world and as email, id in the other. -/
theorem column_operations_perm_witness :
    (sampleUpgrader.DropColumn sampleImports "users" "email" usersWorld).1
        = (sampleUpgrader.DropColumn sampleImports "users" "email" swappedUsersWorld).1
      ∧ ∃ stmts,
          (sampleUpgrader.DropColumn sampleImports "users" "email" usersWorld).2.executed
            = usersWorld.executed ++ stmts
          ∧ (sampleUpgrader.DropColumn sampleImports "users" "email"
              swappedUsersWorld).2.executed = swappedUsersWorld.executed ++ stmts :=
  (column_operations_perm sampleImports sampleUpgrader "users" usersWorld swappedUsersWorld
    [{ Name := "id" }, { Name := "email", IsNull := true }]
    [{ Name := "email", IsNull := true }, { Name := "id" }]
    (by decide) (by decide) (List.Perm.swap _ _ _)).2.1 "email" (by decide)

/-! ## Repeating a column operation -/

theorem upgrader.liveColumns_eq_some (imp : Imports σ) (u : upgrader σ) (table : String)
    (w : World σ) (names : List String) :
    u.liveColumns imp table w.db = some names ↔
      ∃ columns, (u.getColumns imp table w).1 = (columns, none)
        ∧ columns.map Column.Name = names := by
  unfold upgrader.liveColumns upgrader.getColumns
  dsimp only
  cases u.s.SelectContext w.db ("PRAGMA TABLE_INFO(" ++ imp.quote table ++ ")")
    [u.s.Config.DBName, table] <;> simp

theorem upgrader.AddColumn_of_present (imp : Imports σ) (u : upgrader σ) (table : String)
    (column : Column) (w : World σ) (live : List Column)
    (hlive : (u.getColumns imp table w).1 = (live, none))
    (h : column.Name ∈ live.map Column.Name) :
    u.AddColumn imp table column w = ((false, none), w) := by
  have hg := upgrader.getColumns_eq imp u table w _ hlive
  have h1 : (Columns.Get live column.Name).isSome = true :=
    (Columns.Get_isSome_iff live column.Name).2 h
  simp [upgrader.AddColumn, hg, h1]

theorem upgrader.DropColumn_of_absent (imp : Imports σ) (u : upgrader σ)
    (table column : String) (w : World σ) (live : List Column)
    (hlive : (u.getColumns imp table w).1 = (live, none))
    (h : column ∉ live.map Column.Name) :
    u.DropColumn imp table column w = ((false, none), w) := by
  have hg := upgrader.getColumns_eq imp u table w _ hlive
  have h1 : (Columns.Get live column).isNone = true :=
    (Columns.Get_isNone_iff live column).2 h
  simp [upgrader.DropColumn, hg, h1]

theorem upgrader.RenameColumn_of_migrated (imp : Imports σ) (u : upgrader σ)
    (table oldName newName : String) (w : World σ) (live : List Column)
    (hlive : (u.getColumns imp table w).1 = (live, none))
    (hold : oldName ∉ live.map Column.Name) (hnew : newName ∈ live.map Column.Name) :
    u.RenameColumn imp table oldName newName w = ((false, none), w) := by
  have hne : oldName ≠ newName := fun h => hold (h ▸ hnew)
  have hg := upgrader.getColumns_eq imp u table w _ hlive
  have h1 : (Columns.Get live oldName).isNone = true :=
    (Columns.Get_isNone_iff live oldName).2 hold
  have h2 : (Columns.Get live newName).isNone = false := by
    have := (Columns.Get_isSome_iff live newName).2 hnew
    cases hc : Columns.Get live newName <;> simp_all
  simp [upgrader.RenameColumn, hne, hg, h1, h2]

/-- C12: from a world in which the column statement of the call has its
intended effect on the live columns, if AddColumn, DropColumn or RenameColumn
succeeds, the same call repeated in the world the first call left succeeds,
reports false and leaves that world unchanged: it executes no statement and the
database, hence the live columns, stay as they were. -/
theorem column_operations_repeat (imp : Imports σ) (u : upgrader σ) (table : String)
    (w : World σ) :
    (∀ column : Column, u.addsColumn imp table column w.db →
        (u.AddColumn imp table column w).1.2 = none →
        u.AddColumn imp table column (u.AddColumn imp table column w).2
          = ((false, none), (u.AddColumn imp table column w).2))
    ∧ (∀ column : String, u.dropsColumn imp table column w.db →
        (u.DropColumn imp table column w).1.2 = none →
        u.DropColumn imp table column (u.DropColumn imp table column w).2
          = ((false, none), (u.DropColumn imp table column w).2))
    ∧ (∀ oldName newName : String, u.renamesColumn imp table oldName newName w.db →
        (u.RenameColumn imp table oldName newName w).1.2 = none →
        u.RenameColumn imp table oldName newName
            (u.RenameColumn imp table oldName newName w).2
          = ((false, none), (u.RenameColumn imp table oldName newName w).2)) := by
  have hg := upgrader.getColumns_eq imp u table w _ rfl
  refine ⟨fun column heff hok => ?_, fun column heff hok => ?_,
    fun oldName newName heff hok => ?_⟩
  · rcases hr : (u.getColumns imp table w).1 with ⟨live, _ | e⟩
    swap
    · rw [hr] at hg
      simp [upgrader.AddColumn, hg] at hok
    rw [hr] at hg
    by_cases hc : column.Name ∈ live.map Column.Name
    · have h1 := upgrader.AddColumn_of_present imp u table column w live hr hc
      rw [h1]
      exact h1
    · have hs : (Columns.Get live column.Name).isSome = false := by
        have := (Columns.Get_isNone_iff live column.Name).2 hc
        cases hx : Columns.Get live column.Name <;> simp_all
      cases hx : (u.s.ExecContext w.db (imp.AddColumn u.ddl table column) []).1
      swap
      · simp [upgrader.AddColumn, hg, hs, upgrader.Exec, hx] at hok
      have h1 : u.AddColumn imp table column w =
          ((true, none),
           { db := (u.s.ExecContext w.db (imp.AddColumn u.ddl table column) []).2
             executed := w.executed ++ [imp.AddColumn u.ddl table column] }) := by
        simp [upgrader.AddColumn, hg, hs, upgrader.Exec, hx]
      obtain ⟨names', hl', hn'⟩ := heff (live.map Column.Name)
        ((upgrader.liveColumns_eq_some imp u table w _).2 ⟨live, hr, rfl⟩) hx
      rw [h1]
      obtain ⟨live', hr', hm'⟩ := (upgrader.liveColumns_eq_some imp u table
        { db := (u.s.ExecContext w.db (imp.AddColumn u.ddl table column) []).2
          executed := w.executed ++ [imp.AddColumn u.ddl table column] } names').1 hl'
      exact upgrader.AddColumn_of_present imp u table column _ live' hr'
        (hm' ▸ (hn' column.Name).2 (Or.inr rfl))
  · rcases hr : (u.getColumns imp table w).1 with ⟨live, _ | e⟩
    swap
    · rw [hr] at hg
      simp [upgrader.DropColumn, hg] at hok
    rw [hr] at hg
    by_cases hc : column ∈ live.map Column.Name
    · have hs : (Columns.Get live column).isNone = false := by
        have := (Columns.Get_isSome_iff live column).2 hc
        cases hx : Columns.Get live column <;> simp_all
      cases hx : (u.s.ExecContext w.db (imp.DropColumn u.ddl table column) []).1
      swap
      · simp [upgrader.DropColumn, hg, hs, upgrader.Exec, hx] at hok
      have h1 : u.DropColumn imp table column w =
          ((true, none),
           { db := (u.s.ExecContext w.db (imp.DropColumn u.ddl table column) []).2
             executed := w.executed ++ [imp.DropColumn u.ddl table column] }) := by
        simp [upgrader.DropColumn, hg, hs, upgrader.Exec, hx]
      obtain ⟨names', hl', hn'⟩ := heff (live.map Column.Name)
        ((upgrader.liveColumns_eq_some imp u table w _).2 ⟨live, hr, rfl⟩) hx
      rw [h1]
      obtain ⟨live', hr', hm'⟩ := (upgrader.liveColumns_eq_some imp u table
        { db := (u.s.ExecContext w.db (imp.DropColumn u.ddl table column) []).2
          executed := w.executed ++ [imp.DropColumn u.ddl table column] } names').1 hl'
      exact upgrader.DropColumn_of_absent imp u table column _ live' hr'
        (hm' ▸ fun hmem => ((hn' column).1 hmem).2 rfl)
    · have h1 := upgrader.DropColumn_of_absent imp u table column w live hr hc
      rw [h1]
      exact h1
  · by_cases hne : oldName = newName
    · have h1 : u.RenameColumn imp table oldName newName w = ((false, none), w) := by
        simp [upgrader.RenameColumn, hne]
      rw [h1]
      exact h1
    rcases hr : (u.getColumns imp table w).1 with ⟨live, _ | e⟩
    swap
    · rw [hr] at hg
      simp [upgrader.RenameColumn, hne, hg] at hok
    rw [hr] at hg
    by_cases ho : oldName ∈ live.map Column.Name
    · have hso : (Columns.Get live oldName).isNone = false := by
        have := (Columns.Get_isSome_iff live oldName).2 ho
        cases hx : Columns.Get live oldName <;> simp_all
      by_cases hn : newName ∈ live.map Column.Name
      · have hsn : (Columns.Get live newName).isSome = true :=
          (Columns.Get_isSome_iff live newName).2 hn
        simp [upgrader.RenameColumn, hne, hg, hso, hsn] at hok
      · have hsn : (Columns.Get live newName).isSome = false := by
          have := (Columns.Get_isNone_iff live newName).2 hn
          cases hx : Columns.Get live newName <;> simp_all
        cases hx : (u.s.ExecContext w.db (imp.RenameColumn u.ddl table oldName newName) []).1
        swap
        · simp [upgrader.RenameColumn, hne, hg, hso, hsn, upgrader.Exec, hx] at hok
        have h1 : u.RenameColumn imp table oldName newName w =
            ((true, none),
             { db := (u.s.ExecContext w.db
                 (imp.RenameColumn u.ddl table oldName newName) []).2
               executed := w.executed ++ [imp.RenameColumn u.ddl table oldName newName] }) := by
          simp [upgrader.RenameColumn, hne, hg, hso, hsn, upgrader.Exec, hx]
        obtain ⟨names', hl', hn'⟩ := heff (live.map Column.Name)
          ((upgrader.liveColumns_eq_some imp u table w _).2 ⟨live, hr, rfl⟩) hx
        rw [h1]
        obtain ⟨live', hr', hm'⟩ := (upgrader.liveColumns_eq_some imp u table
          { db := (u.s.ExecContext w.db (imp.RenameColumn u.ddl table oldName newName) []).2
            executed := w.executed ++ [imp.RenameColumn u.ddl table oldName newName] }
          names').1 hl'
        refine upgrader.RenameColumn_of_migrated imp u table oldName newName _ live' hr'
          (hm' ▸ fun hmem => ?_) (hm' ▸ (hn' newName).2 (Or.inr ⟨rfl, ho⟩))
        rcases (hn' oldName).1 hmem with h | h
        · exact h.2 rfl
        · exact hne h.1
    · have hso : (Columns.Get live oldName).isNone = true :=
        (Columns.Get_isNone_iff live oldName).2 ho
      by_cases hn : newName ∈ live.map Column.Name
      · have h1 := upgrader.RenameColumn_of_migrated imp u table oldName newName w live
          hr ho hn
        rw [h1]
        exact h1
      · have hsn : (Columns.Get live newName).isNone = true :=
          (Columns.Get_isNone_iff live newName).2 hn
        simp [upgrader.RenameColumn, hne, hg, hso, hsn] at hok

theorem columnStore_renamesColumn :
    columnUpgrader.renamesColumn sampleImports "users" "email" "mail" usersDb := by
  intro names hnames _
  have h0 : columnUpgrader.liveColumns sampleImports "users" usersDb
      = some ["id", "email"] := rfl
  have hn : names = ["id", "email"] := (Option.some.inj (h0.symm.trans hnames)).symm
  subst hn
  refine ⟨["id", "mail"], rfl, fun n => ?_⟩
  have hmem : "email" ∈ ["id", "email"] := by decide
  simp only [List.mem_cons, List.mem_singleton, List.not_mem_nil, or_false] at hmem ⊢
  constructor
  · rintro (h | h)
    · exact Or.inl ⟨Or.inl h, by rw [h]; decide⟩
    · exact Or.inr ⟨h, hmem⟩
  · rintro (⟨h | h, hne⟩ | ⟨h, _⟩)
    · exact Or.inl h
    · exact absurd h hne
    · exact Or.inr h

/-- Witness of C12 on the store of column statements: renaming email to mail
on users succeeds, and the same call repeated changes nothing. -/
theorem column_operations_repeat_witness :
    (columnUpgrader.RenameColumn sampleImports "users" "email" "mail" usersWorld).1
        = (true, none)
      ∧ columnUpgrader.RenameColumn sampleImports "users" "email" "mail"
          (columnUpgrader.RenameColumn sampleImports "users" "email" "mail" usersWorld).2
        = ((false, none),
           (columnUpgrader.RenameColumn sampleImports "users" "email" "mail" usersWorld).2) :=
  ⟨rfl, (column_operations_repeat sampleImports columnUpgrader "users" usersWorld).2.2
    "email" "mail" columnStore_renamesColumn rfl⟩

end Sqlite3
